import Mathlib

/-!
Pepero: a verification development of `src/Pepero.cpp`.

Shallow embedding of the simulation core of the game (player input handling,
collision detection, bullet motion, start-screen dismissal, frame pacing).

Modelling conventions.

* A C++ `int` is a Lean `Int` holding the value of the variable.  The
  arithmetic of `distanceSquared`, whose products leave the 32-bit range for
  coordinates the game reaches, is reduced to 32 bits by `wrapInt` after every
  operation (two's complement wrap-around, what the compiled program does).
  The other `int` computations add or subtract small constants to coordinates
  and counters and stay far inside the 32-bit range, so they are not reduced.
* A C++ `uint` (the tick counters of `main`) is a `Nat` reduced modulo `2^32`.
* `rand()` is a stream of natural numbers: each call consumes the head.
* `SDL_Event` is a C union.  The members read by the program are kept as
  separate fields; every theorem quantifies over all values of all fields, so
  it holds in particular for the values the overlapping storage would give.
-/

namespace Pepero

/-! ## Constants -/

def SCREEN_WIDTH : Int := 640
def SCREEN_HEIGHT : Int := 480
def SCREEN_FPS : Int := 30

/-- The constant `SCREEN_TICK_PER_FRAME = 1000 / SCREEN_FPS` (integer division). -/
def SCREEN_TICK_PER_FRAME : Int := Int.tdiv 1000 SCREEN_FPS

/-- Value of `Bullet::bRadius`. -/
def bRadius : Int := 25

/-- Value of `Player::pRadius`. -/
def pRadius : Int := 10

/-! ## Input events (the parts of the SDL2 event union the program reads) -/

def SDL_QUIT : Nat := 0x100
def SDL_MOUSEMOTION : Nat := 0x400
def SDL_MOUSEBUTTONDOWN : Nat := 0x401
def SDL_MOUSEBUTTONUP : Nat := 0x402
def SDL_BUTTON_LEFT : Nat := 1

/-- The fields of `e.button` read by the program. -/
structure SDL_MouseButtonEvent where
  button : Nat
  x : Int
  y : Int
  deriving DecidableEq, Repr

/-- The fields of `e.motion` read by the program. -/
structure SDL_MouseMotionEvent where
  x : Int
  y : Int
  deriving DecidableEq, Repr

/-- An input event: `e.type`, `e.button` and `e.motion`. -/
structure SDL_Event where
  type : Nat
  button : SDL_MouseButtonEvent
  motion : SDL_MouseMotionEvent
  deriving DecidableEq, Repr

/-! ## Player -/

/-- The data members of `class Player`. -/
structure Player where
  start : Bool
  mPosX : Int
  mPosY : Int
  hits : Int
  deriving DecidableEq, Repr

/-- The constructor `Player::Player()` (with the in-class initialiser `start = false`). -/
def Player.new : Player :=
  { start := false
    mPosX := Int.tdiv SCREEN_WIDTH 2
    mPosY := Int.tdiv SCREEN_HEIGHT 2
    hits := 0 }

/-- One pass of the body of the clamping loop of `Player::handleEvent`, for loop
index `i`: the four `if` statements, executed in source order on `mPosX`, `mPosY`. -/
def clampBody (i : Int) (mPosX mPosY : Int) : Int × Int :=
  let mPosX := if mPosX ≤ i then mPosX + (pRadius - i) else mPosX
  let mPosX := if mPosX ≥ SCREEN_WIDTH - i then mPosX - (pRadius - i) else mPosX
  let mPosY := if mPosY ≤ i then mPosY + (pRadius - i) else mPosY
  let mPosY := if mPosY ≥ SCREEN_HEIGHT - i then mPosY - (pRadius - i) else mPosY
  (mPosX, mPosY)

/-- The loop `for (int i = ...; i >= 0; i--)` of `Player::handleEvent`, started at
index `i`: the body runs for `i, i-1, ..., 0`. -/
def clampLoop : Nat → Int → Int → Int × Int
  | 0, mPosX, mPosY => clampBody 0 mPosX mPosY
  | i + 1, mPosX, mPosY =>
      let r := clampBody (Int.ofNat (i + 1)) mPosX mPosY
      clampLoop i r.1 r.2

/-- The method `Player::handleEvent(SDL_Event &e)`.  The event is passed by
reference and the condition `e.type = SDL_MOUSEBUTTONUP` is an assignment, so the
event after the call is returned next to the player.  (`SDL_ShowCursor(0)` only
changes the cursor state of the windowing library, which nothing here reads.) -/
def Player.handleEvent (p : Player) (e : SDL_Event) : Player × SDL_Event :=
  -- if (!start) { if (e.type = SDL_MOUSEBUTTONUP) { if (e.button.button == SDL_BUTTON_LEFT) ... } }
  let pe : Player × SDL_Event :=
    if p.start = false then
      let e1 : SDL_Event := { e with type := SDL_MOUSEBUTTONUP }
      if e1.type ≠ 0 then
        if e1.button.button = SDL_BUTTON_LEFT then
          ({ p with start := true, mPosX := e1.button.x, mPosY := e1.button.y }, e1)
        else (p, e1)
      else (p, e1)
    else (p, e)
  let p1 := pe.1
  let e2 := pe.2
  -- if (start) { if (e.type == SDL_MOUSEMOTION) { ... clamp loop ... } }
  if p1.start = true then
    if e2.type = SDL_MOUSEMOTION then
      let r := clampLoop pRadius.toNat e2.motion.x e2.motion.y
      ({ p1 with mPosX := r.1, mPosY := r.2 }, e2)
    else (p1, e2)
  else (p1, e2)

/-- The pointer-move event at `(x, y)` (no button held). -/
def mouseMotion (x y : Int) : SDL_Event :=
  { type := SDL_MOUSEMOTION, button := ⟨0, x, y⟩, motion := ⟨x, y⟩ }

/-- The left-button release event at `(x, y)`. -/
def leftButtonUp (x y : Int) : SDL_Event :=
  { type := SDL_MOUSEBUTTONUP, button := ⟨SDL_BUTTON_LEFT, x, y⟩, motion := ⟨x, y⟩ }

/-- The left-button press event at `(x, y)`. -/
def leftButtonDown (x y : Int) : SDL_Event :=
  { type := SDL_MOUSEBUTTONDOWN, button := ⟨SDL_BUTTON_LEFT, x, y⟩, motion := ⟨x, y⟩ }

/-! ## Geometry -/

/-- The value a 32-bit `int` holds after an operation whose exact result is
`z`: the representative of `z` modulo `2^32` in `[-2^31, 2^31)`. -/
def wrapInt (z : Int) : Int :=
  (z + 2147483648) % 4294967296 - 2147483648

/-- The function `distanceSquared`.  Differences, products and sum are computed
in 32-bit `int`, each operation wrapping around; the `int` result is returned as
a `double`.  Every `int` is exactly representable as a `double`, and so is the
`int` it is compared with, so the integer value of the result is kept. -/
def distanceSquared (x1 y1 x2 y2 : Int) : Int :=
  let deltaX := wrapInt (x2 - x1)
  let deltaY := wrapInt (y2 - y1)
  wrapInt (wrapInt (deltaX * deltaX) + wrapInt (deltaY * deltaY))

/-! ## Random numbers -/

/-- The state of the C library generator: the stream of values the next calls
of `rand()` return (each one a non-negative `int`). -/
abbrev RandStream := Nat → Nat

/-- One call of `rand()`: the value returned and the rest of the stream. -/
def rand (s : RandStream) : Int × RandStream :=
  (Int.ofNat (s 0), fun n => s (n + 1))

/-! ## Bullets -/

/-- The data members of `class Bullet` that are ever written or read
(`bInitX`, `bInitY` are declared but never used). -/
structure Bullet where
  bPosX : Int
  bPosY : Int
  deriving DecidableEq, Repr

def Bullet.getX (b : Bullet) : Int := b.bPosX

def Bullet.getY (b : Bullet) : Int := b.bPosY

/-- The constructor `Bullet::Bullet()`: two calls of `rand()`. -/
def Bullet.new (s : RandStream) : Bullet × RandStream :=
  let r1 := rand s
  let r2 := rand r1.2
  ({ bPosX := Int.tmod r1.1 SCREEN_WIDTH, bPosY := Int.tmod r2.1 SCREEN_HEIGHT }, r2.2)

/-- The method `Bullet::move(int x, int y)`; `rand()` is called only when the
bullet is respawned. -/
def Bullet.move (b : Bullet) (x y : Int) (s : RandStream) : Bullet × RandStream :=
  let bPosX := b.bPosX + x
  let bPosY := b.bPosY + y
  if bPosX > SCREEN_WIDTH ∨ bPosY > SCREEN_HEIGHT then
    let r1 := rand s
    let r2 := rand r1.2
    ({ bPosX := Int.tmod r1.1 SCREEN_WIDTH, bPosY := Int.tmod r2.1 SCREEN_HEIGHT }, r2.2)
  else
    ({ bPosX := bPosX, bPosY := bPosY }, s)

/-- The data member of `class BulletGroup`: the vector `bGroup`. -/
structure BulletGroup where
  bGroup : List Bullet
  deriving DecidableEq, Repr

/-! ## Collision detection -/

/-- The range-for loop of `Player::collisionDetection` over the bullets still to
be visited: `self` is the object the method is called on (whose `hits` is
incremented), `a` the player whose position is tested. -/
def collisionLoop (self a : Player) : List Bullet → Bool × Player
  | [] => (false, self)
  | x :: rest =>
      let totalRadiusSquared := pRadius + bRadius
      let totalRadiusSquared := totalRadiusSquared * totalRadiusSquared
      if distanceSquared a.mPosX a.mPosY x.getX x.getY < totalRadiusSquared then
        (true, { self with hits := self.hits + 1 })
      else
        collisionLoop self a rest

/-- The method `Player::collisionDetection(Player* a, BulletGroup* b)`: the
returned flag and the object after the call. -/
def Player.collisionDetection (self a : Player) (b : BulletGroup) : Bool × Player :=
  collisionLoop self a b.bGroup

/-! ## Start screen -/

/-- The data members of `class Texture`; `texture = none` is the null pointer. -/
structure Texture where
  texture : Option Nat
  width : Int
  height : Int
  deriving DecidableEq, Repr

/-- The constructor `Texture::Texture()`. -/
def Texture.new : Texture := { texture := none, width := 0, height := 0 }

/-- The method `Texture::free()`. -/
def Texture.free (t : Texture) : Texture :=
  if t.texture ≠ none then { texture := none, width := 0, height := 0 } else t

def Texture.getWidth (t : Texture) : Int := t.width

def Texture.getHeight (t : Texture) : Int := t.height

/-- The data members of `class Start`. -/
structure Start where
  x : Int
  y : Int
  mouseX : Int
  mouseY : Int
  deriving DecidableEq, Repr

/-- The constructor `Start::Start()`, reading the global texture `start`. -/
def Start.new (start : Texture) : Start :=
  { x := Int.tdiv (SCREEN_WIDTH - start.getWidth) 2
    y := Int.tdiv (SCREEN_HEIGHT - start.getHeight) 2
    mouseX := 0
    mouseY := 0 }

def Start.getX (s : Start) : Int := s.x

def Start.getY (s : Start) : Int := s.y

/-- The method `Start::click(SDL_Event &e)`, acting on the object and on the
global texture `start`. -/
def Start.click (s : Start) (start : Texture) (e : SDL_Event) : Start × Texture :=
  if e.type = SDL_MOUSEBUTTONDOWN then
    if e.button.button = SDL_BUTTON_LEFT then
      let s1 : Start := { s with mouseX := e.button.x, mouseY := e.button.y }
      if s1.mouseX > s1.getX ∧ s1.mouseX < s1.getX + start.getWidth ∧
          s1.mouseY > s1.getY ∧ s1.mouseY < s1.getY + start.getHeight then
        (s1, start.free)
      else (s1, start)
    else (s, start)
  else (s, start)

/-- A texture is well formed when a null `texture` has zero width and height:
the state after the constructor and after every `free()`. -/
def Texture.wf (t : Texture) : Prop :=
  t.texture = none → t.width = 0 ∧ t.height = 0

/-! ## The game loop -/

/-- The objects of `main` that the event loop acts on, and the global texture
`start`. -/
structure GameState where
  quit : Bool
  s : Start
  start : Texture
  player : Player
  deriving DecidableEq, Repr

/-- The body of the loop `while(SDL_PollEvent(&e) != 0)` of `main` for one
polled event `e`. -/
def pollStep (g : GameState) (e : SDL_Event) : GameState :=
  let quit := if e.type = SDL_QUIT then true else g.quit
  let c := g.s.click g.start e
  let h := g.player.handleEvent e
  { quit := quit, s := c.1, start := c.2, player := h.1 }

/-- The loop `while(SDL_PollEvent(&e) != 0)` of `main`, for the events that
`SDL_PollEvent` delivers, in order. -/
def pollLoop (g : GameState) : List SDL_Event → GameState
  | [] => g
  | e :: es => pollLoop (pollStep g e) es

/-- Conversion of an `int` to `unsigned int` (reduction modulo `2^32`). -/
def toUInt (z : Int) : Nat := (z % 4294967296).toNat

/-- The frame pacing at the end of a frame of `main`: `capTimer` is the value
`SDL_GetTicks()` returned at the top of the frame (no other clock value is read
in the frame).  The result is the argument of `SDL_Delay`, or `none` when
`SDL_Delay` is not called.  Comparison and subtraction are done in `unsigned`. -/
def frameDelay (capTimer : Nat) : Option Nat :=
  if capTimer < toUInt SCREEN_TICK_PER_FRAME then
    some ((toUInt SCREEN_TICK_PER_FRAME + 4294967296 - capTimer) % 4294967296)
  else none

/-- The pacing as the specification words it, for comparison with `frameDelay`:
with `elapsed` the time `now` at the end of the frame minus the frame-start
timestamp, sleep `33 - elapsed` when `elapsed < 33`, and do not sleep otherwise. -/
def specFrameDelay (capTimer now : Nat) : Option Nat :=
  let elapsed := (now + 4294967296 - capTimer) % 4294967296
  if elapsed < 33 then some (33 - elapsed) else none

/-! ## Bullet groups and their motion -/

/-- The loop of the constructor `BulletGroup::BulletGroup()` with `n` passes
left: each pass pushes a new `Bullet()` at the back of `bGroup`. -/
def bulletGroupFill : Nat → List Bullet → RandStream → List Bullet × RandStream
  | 0, bGroup, s => (bGroup, s)
  | n + 1, bGroup, s =>
      let b := Bullet.new s
      bulletGroupFill n (bGroup ++ [b.1]) b.2

/-- The constructor `BulletGroup::BulletGroup()`: ten passes of the loop. -/
def BulletGroup.new (s : RandStream) : BulletGroup × RandStream :=
  let r := bulletGroupFill 10 [] s
  ({ bGroup := r.1 }, r.2)

/-- The two function-local variables `static int bVelX`, `static int bVelY` of
a motion method; `none` is a variable that is not initialised yet.  A static
local belongs to the function, not to the object the method is called on. -/
structure StaticVel where
  bVelX : Option Int
  bVelY : Option Int
  deriving DecidableEq, Repr

/-- The declaration `static int v = rand() % m - 1;`: the initialiser runs (and
calls `rand()`) only the first time control passes through the declaration.
The result is the value of `v` after the declaration and the generator state. -/
def staticInit (v : Option Int) (m : Int) (s : RandStream) : Int × RandStream :=
  match v with
  | some val => (val, s)
  | none =>
      let r := rand s
      (Int.tmod r.1 m - 1, r.2)

/-- The range-for loop shared by `BulletGroup::moveStraight` (`m = 5`) and
`BulletGroup::moveCircular` (`m = 3`) over the bullets still to be visited: the
two static declarations, then `x.move(bVelX, bVelY)` on the bullet in place. -/
def moveLoop (m : Int) (st : StaticVel) (s : RandStream) :
    List Bullet → List Bullet × StaticVel × RandStream
  | [] => ([], st, s)
  | x :: rest =>
      let vx := staticInit st.bVelX m s
      let vy := staticInit st.bVelY m vx.2
      let b := x.move vx.1 vy.1 vy.2
      let r := moveLoop m { bVelX := some vx.1, bVelY := some vy.1 } b.2 rest
      (b.1 :: r.1, r.2.1, r.2.2)

/-- The method `BulletGroup::moveStraight()`: the group, the statics of the
method and the generator state after the call. -/
def BulletGroup.moveStraight (g : BulletGroup) (st : StaticVel) (s : RandStream) :
    BulletGroup × StaticVel × RandStream :=
  let r := moveLoop 5 st s g.bGroup
  ({ bGroup := r.1 }, r.2.1, r.2.2)

/-- The method `BulletGroup::moveCircular()`: the group, the statics of the
method and the generator state after the call. -/
def BulletGroup.moveCircular (g : BulletGroup) (st : StaticVel) (s : RandStream) :
    BulletGroup × StaticVel × RandStream :=
  let r := moveLoop 3 st s g.bGroup
  ({ bGroup := r.1 }, r.2.1, r.2.2)

/-- The part of the program state that the motion step of a frame acts on: the
groups `lol` and `meh` of `main`, the statics of `moveStraight` and of
`moveCircular`, and the generator state. -/
structure Motion where
  lol : BulletGroup
  meh : BulletGroup
  straight : StaticVel
  circular : StaticVel
  rng : RandStream

/-- The motion step of one frame of `main`: `lol.moveStraight(); meh.moveCircular();`. -/
def motionStep (w : Motion) : Motion :=
  let a := w.lol.moveStraight w.straight w.rng
  let b := w.meh.moveCircular w.circular a.2.2
  { lol := a.1, meh := b.1, straight := a.2.1, circular := b.2.1, rng := b.2.2 }

/-- The motion steps of `n` consecutive frames of `main`. -/
def motionSteps : Nat → Motion → Motion
  | 0, w => w
  | n + 1, w => motionSteps n (motionStep w)

/-- The collision step at the top of a frame of `main`:
`if (player.collisionDetection(&player, &lol) == true ||
player.collisionDetection(&player, &meh)) loadScore(player.getHits());`
with the short-circuit evaluation of `||`.  The result is the player after the
step and the argument of `loadScore`, or `none` when `loadScore` is not called. -/
def collisionStep (player : Player) (lol meh : BulletGroup) : Player × Option Int :=
  let c1 := player.collisionDetection player lol
  if c1.1 = true then (c1.2, some c1.2.hits)
  else
    let c2 := c1.2.collisionDetection c1.2 meh
    if c2.1 = true then (c2.2, some c2.2.hits) else (c2.2, none)

/-- A group of `main` after 33000 frames of the drift `(-1,-1)` without a
respawn: the bullets constructed at `(60k+5, 40k+3)`, `k = 0..9`. -/
def driftedGroup : BulletGroup :=
  { bGroup := [⟨-32995, -32997⟩, ⟨-32935, -32957⟩, ⟨-32875, -32917⟩, ⟨-32815, -32877⟩,
      ⟨-32755, -32837⟩, ⟨-32695, -32797⟩, ⟨-32635, -32757⟩, ⟨-32575, -32717⟩,
      ⟨-32515, -32677⟩, ⟨-32455, -32637⟩] }

/-- A group of ten bullets on the screen, all far from the corner `(630,470)`. -/
def cornerFreeGroup : BulletGroup :=
  { bGroup := [⟨10, 10⟩, ⟨30, 20⟩, ⟨50, 30⟩, ⟨70, 40⟩, ⟨90, 50⟩, ⟨110, 60⟩, ⟨130, 70⟩,
      ⟨150, 80⟩, ⟨170, 90⟩, ⟨190, 100⟩] }

/-! ## Auxiliary lemmas -/

theorem collisionLoop_true_iff (self a : Player) (l : List Bullet) :
    (collisionLoop self a l).1 = true ↔
      ∃ x ∈ l, distanceSquared a.mPosX a.mPosY x.getX x.getY < 1225 := by
  induction l with
  | nil => simp [collisionLoop]
  | cons x rest ih =>
      by_cases hx : distanceSquared a.mPosX a.mPosY x.getX x.getY < 1225
      · have hc : collisionLoop self a (x :: rest)
            = (true, { self with hits := self.hits + 1 }) := by
          simp only [collisionLoop, pRadius, bRadius]
          norm_num
          intro h
          omega
        rw [hc]
        simp only [true_iff]
        exact ⟨x, List.mem_cons_self x rest, hx⟩
      · have hc : collisionLoop self a (x :: rest) = collisionLoop self a rest := by
          simp only [collisionLoop, pRadius, bRadius]
          norm_num
          intro h
          omega
        rw [hc, ih]
        constructor
        · rintro ⟨z, hz, hlt⟩
          exact ⟨z, List.mem_cons_of_mem x hz, hlt⟩
        · rintro ⟨z, hz, hlt⟩
          rcases List.mem_cons.mp hz with h | h
          · subst h
            exact absurd hlt hx
          · exact ⟨z, h, hlt⟩

theorem collisionLoop_snd (self a : Player) (l : List Bullet) :
    (collisionLoop self a l).2 =
      if (collisionLoop self a l).1 = true then { self with hits := self.hits + 1 }
      else self := by
  induction l with
  | nil => simp [collisionLoop]
  | cons x rest ih =>
      by_cases hx : distanceSquared a.mPosX a.mPosY x.getX x.getY
          < (pRadius + bRadius) * (pRadius + bRadius)
      · simp [collisionLoop, hx]
      · simpa [collisionLoop, hx] using ih

theorem Texture.free_texture (t : Texture) : t.free.texture = none := by
  unfold Texture.free
  split <;> simp_all

theorem Texture.free_of_null (t : Texture) (h : t.texture = none) : t.free = t := by
  simp [Texture.free, h]

theorem Texture.wf_new : Texture.new.wf := by
  intro _
  exact ⟨rfl, rfl⟩

theorem Texture.wf_free (t : Texture) (h : t.wf) : t.free.wf := by
  unfold Texture.free
  split
  · intro _
    exact ⟨rfl, rfl⟩
  · exact h

theorem Start.click_of_null (s : Start) (t : Texture) (e : SDL_Event)
    (h : t.texture = none) : (s.click t e).2 = t := by
  unfold Start.click
  split_ifs <;> simp [Texture.free_of_null t h]

theorem Player.handleEvent_active (p : Player) (e : SDL_Event) (h : p.start = true) :
    (p.handleEvent e).1.start = true := by
  unfold Player.handleEvent
  simp only [h]
  split_ifs <;> simp_all

theorem wrapInt_of_range (z : Int) (h : -2147483648 ≤ z ∧ z < 2147483648) :
    wrapInt z = z := by
  unfold wrapInt
  omega

theorem abs_bound_of_sq_lt (d : Int) (h : d * d < 2147483648) :
    -46341 < d ∧ d < 46341 := by
  constructor
  · by_contra hc
    push_neg at hc
    nlinarith
  · by_contra hc
    push_neg at hc
    nlinarith

/-- When the exact squared distance is below `2^31` no operation of
`distanceSquared` overflows, and the result is the exact squared distance. -/
theorem distanceSquared_eq_of_lt (x1 y1 x2 y2 : Int)
    (h : (x1 - x2) ^ 2 + (y1 - y2) ^ 2 < 2147483648) :
    distanceSquared x1 y1 x2 y2 = (x1 - x2) ^ 2 + (y1 - y2) ^ 2 := by
  have ex : (x1 - x2) ^ 2 = (x2 - x1) * (x2 - x1) := by ring
  have ey : (y1 - y2) ^ 2 = (y2 - y1) * (y2 - y1) := by ring
  rw [ex, ey] at h ⊢
  have nx := mul_self_nonneg (x2 - x1)
  have ny := mul_self_nonneg (y2 - y1)
  have bx := abs_bound_of_sq_lt (x2 - x1) (by linarith)
  have bY := abs_bound_of_sq_lt (y2 - y1) (by linarith)
  have wx : wrapInt (x2 - x1) = x2 - x1 := wrapInt_of_range _ ⟨by linarith, by linarith⟩
  have wy : wrapInt (y2 - y1) = y2 - y1 := wrapInt_of_range _ ⟨by linarith, by linarith⟩
  have wxx : wrapInt ((x2 - x1) * (x2 - x1)) = (x2 - x1) * (x2 - x1) :=
    wrapInt_of_range _ ⟨by linarith, by linarith⟩
  have wyy : wrapInt ((y2 - y1) * (y2 - y1)) = (y2 - y1) * (y2 - y1) :=
    wrapInt_of_range _ ⟨by linarith, by linarith⟩
  have wsum : wrapInt ((x2 - x1) * (x2 - x1) + (y2 - y1) * (y2 - y1))
      = (x2 - x1) * (x2 - x1) + (y2 - y1) * (y2 - y1) :=
    wrapInt_of_range _ ⟨by linarith, by linarith⟩
  simp only [distanceSquared, wx, wy, wxx, wyy, wsum]

/-- The computation of `distanceSquared` does not overflow whenever the four
coordinates are within `±16383`: the exact squared distance is below `2^31`. -/
theorem distanceSquared_in_range (x1 y1 x2 y2 : Int)
    (h1 : -16383 ≤ x1 ∧ x1 ≤ 16383) (h2 : -16383 ≤ y1 ∧ y1 ≤ 16383)
    (h3 : -16383 ≤ x2 ∧ x2 ≤ 16383) (h4 : -16383 ≤ y2 ∧ y2 ≤ 16383) :
    (x1 - x2) ^ 2 + (y1 - y2) ^ 2 < 2147483648 ∧
    distanceSquared x1 y1 x2 y2 = (x1 - x2) ^ 2 + (y1 - y2) ^ 2 := by
  have hlt : (x1 - x2) ^ 2 + (y1 - y2) ^ 2 < 2147483648 := by
    have hx : (x1 - x2) ^ 2 ≤ 32766 * 32766 := by
      have := abs_le.mpr (⟨by linarith [h1.1, h3.2], by linarith [h1.2, h3.1]⟩ :
        -32766 ≤ x1 - x2 ∧ x1 - x2 ≤ 32766)
      nlinarith [abs_mul_abs_self (x1 - x2), abs_nonneg (x1 - x2)]
    have hy : (y1 - y2) ^ 2 ≤ 32766 * 32766 := by
      have := abs_le.mpr (⟨by linarith [h2.1, h4.2], by linarith [h2.2, h4.1]⟩ :
        -32766 ≤ y1 - y2 ∧ y1 - y2 ≤ 32766)
      nlinarith [abs_mul_abs_self (y1 - y2), abs_nonneg (y1 - y2)]
    linarith
  exact ⟨hlt, distanceSquared_eq_of_lt x1 y1 x2 y2 hlt⟩

theorem clampBody_interior (i x y : Int) (hi : 0 ≤ i ∧ i ≤ 10)
    (hx : 10 ≤ x ∧ x ≤ 630) (hy : 10 ≤ y ∧ y ≤ 470) : clampBody i x y = (x, y) := by
  simp only [clampBody, pRadius, SCREEN_WIDTH, SCREEN_HEIGHT]
  split_ifs <;> (refine Prod.ext ?_ ?_ <;> simp only <;> omega)

theorem clampLoop_interior (n : Nat) (x y : Int) (hn : n ≤ 10)
    (hx : 10 ≤ x ∧ x ≤ 630) (hy : 10 ≤ y ∧ y ≤ 470) : clampLoop n x y = (x, y) := by
  induction n with
  | zero => exact clampBody_interior 0 x y ⟨le_refl 0, by norm_num⟩ hx hy
  | succ k ih =>
      have hb : clampBody (Int.ofNat (k + 1)) x y = (x, y) :=
        clampBody_interior _ x y ⟨Int.ofNat_nonneg _, by
          show ((k + 1 : Nat) : Int) ≤ 10
          omega⟩ hx hy
      simp only [clampLoop, hb]
      exact ih (by omega)

theorem Bullet.move_upper (b : Bullet) (x y : Int) (s : RandStream) :
    (b.move x y s).1.bPosX ≤ 640 ∧ (b.move x y s).1.bPosY ≤ 480 := by
  by_cases h : b.bPosX + x > 640 ∨ b.bPosY + y > 480
  · have hm : (b.move x y s).1 = ⟨Int.ofNat (s 0 % 640), Int.ofNat (s 1 % 480)⟩ := by
      simp only [Bullet.move, SCREEN_WIDTH, SCREEN_HEIGHT, rand]
      rw [if_pos h]
      rfl
    rw [hm]
    have h0 := Nat.mod_lt (s 0) (show 0 < 640 by norm_num)
    have h1 := Nat.mod_lt (s 1) (show 0 < 480 by norm_num)
    constructor
    · show ((s 0 % 640 : Nat) : Int) ≤ 640
      omega
    · show ((s 1 % 480 : Nat) : Int) ≤ 480
      omega
  · have hm : (b.move x y s).1 = ⟨b.bPosX + x, b.bPosY + y⟩ := by
      simp only [Bullet.move, SCREEN_WIDTH, SCREEN_HEIGHT]
      rw [if_neg h]
    rw [hm]
    constructor
    · show b.bPosX + x ≤ 640
      omega
    · show b.bPosY + y ≤ 480
      omega

theorem Bullet.new_bounds (s : RandStream) :
    (0 ≤ (Bullet.new s).1.bPosX ∧ (Bullet.new s).1.bPosX < 640) ∧
    (0 ≤ (Bullet.new s).1.bPosY ∧ (Bullet.new s).1.bPosY < 480) := by
  have hm : (Bullet.new s).1 = ⟨Int.ofNat (s 0 % 640), Int.ofNat (s 1 % 480)⟩ := rfl
  rw [hm]
  have h0 := Nat.mod_lt (s 0) (show 0 < 640 by norm_num)
  have h1 := Nat.mod_lt (s 1) (show 0 < 480 by norm_num)
  refine ⟨⟨Int.ofNat_nonneg _, ?_⟩, ⟨Int.ofNat_nonneg _, ?_⟩⟩
  · show ((s 0 % 640 : Nat) : Int) < 640
    omega
  · show ((s 1 % 480 : Nat) : Int) < 480
    omega

theorem bulletGroupFill_length (n : Nat) (acc : List Bullet) (s : RandStream) :
    (bulletGroupFill n acc s).1.length = acc.length + n := by
  induction n generalizing acc s with
  | zero => rfl
  | succ k ih =>
      simp only [bulletGroupFill]
      rw [ih]
      simp only [List.length_append, List.length_singleton]
      omega

theorem bulletGroupFill_forall (P : Bullet → Prop) (hP : ∀ s, P (Bullet.new s).1)
    (n : Nat) (acc : List Bullet) (s : RandStream) (hacc : ∀ b ∈ acc, P b) :
    ∀ b ∈ (bulletGroupFill n acc s).1, P b := by
  induction n generalizing acc s with
  | zero => exact hacc
  | succ k ih =>
      simp only [bulletGroupFill]
      apply ih
      intro b hb
      rcases List.mem_append.mp hb with h | h
      · exact hacc b h
      · rw [List.mem_singleton.mp h]
        exact hP s

theorem moveLoop_length (m : Int) (l : List Bullet) (st : StaticVel) (s : RandStream) :
    (moveLoop m st s l).1.length = l.length := by
  induction l generalizing st s with
  | nil => rfl
  | cons x rest ih =>
      simp only [moveLoop, List.length_cons]
      rw [ih]

theorem moveLoop_upper (m : Int) (l : List Bullet) (st : StaticVel) (s : RandStream) :
    ∀ b ∈ (moveLoop m st s l).1, b.bPosX ≤ 640 ∧ b.bPosY ≤ 480 := by
  induction l generalizing st s with
  | nil =>
      intro b hb
      simp [moveLoop] at hb
  | cons x rest ih =>
      intro b hb
      simp only [moveLoop, List.mem_cons] at hb
      rcases hb with h | h
      · rw [h]
        exact Bullet.move_upper _ _ _ _
      · exact ih _ _ b h

theorem moveLoop_some_static (m : Int) (vx vy : Int) (l : List Bullet) (s : RandStream) :
    (moveLoop m ⟨some vx, some vy⟩ s l).2.1 = ⟨some vx, some vy⟩ := by
  induction l generalizing s with
  | nil => rfl
  | cons x rest ih =>
      simp only [moveLoop, staticInit]
      exact ih _

theorem moveLoop_some_moved (m : Int) (vx vy : Int) (l : List Bullet) (s : RandStream) :
    List.Forall₂ (fun old new => ∃ s1 : RandStream, new = (Bullet.move old vx vy s1).1)
      l (moveLoop m ⟨some vx, some vy⟩ s l).1 := by
  induction l generalizing s with
  | nil => exact List.Forall₂.nil
  | cons x rest ih =>
      simp only [moveLoop, staticInit]
      exact List.Forall₂.cons ⟨s, rfl⟩ (ih _)

theorem moveLoop_cons_static (m : Int) (st : StaticVel) (s : RandStream) (x : Bullet)
    (rest : List Bullet) :
    (moveLoop m st s (x :: rest)).2.1 =
      ⟨some (staticInit st.bVelX m s).1,
       some (staticInit st.bVelY m (staticInit st.bVelX m s).2).1⟩ := by
  simp only [moveLoop]
  exact moveLoop_some_static m _ _ rest _

theorem moveLoop_cons_moved (m : Int) (st : StaticVel) (s : RandStream) (x : Bullet)
    (rest : List Bullet) :
    List.Forall₂
      (fun old new => ∃ s1 : RandStream,
        new = (Bullet.move old (staticInit st.bVelX m s).1
          (staticInit st.bVelY m (staticInit st.bVelX m s).2).1 s1).1)
      (x :: rest) (moveLoop m st s (x :: rest)).1 := by
  simp only [moveLoop]
  exact List.Forall₂.cons ⟨_, rfl⟩ (moveLoop_some_moved m _ _ rest _)

theorem moveLoop_fixed_after (m : Int) (st : StaticVel) (s : RandStream) (l : List Bullet) :
    (moveLoop m st s l).1 = [] ∨
      ∃ vx vy : Int, (moveLoop m st s l).2.1 = ⟨some vx, some vy⟩ := by
  cases l with
  | nil => exact Or.inl rfl
  | cons x rest => exact Or.inr ⟨_, _, moveLoop_cons_static m st s x rest⟩

theorem moveLoop_fixed_step (m : Int) (st : StaticVel) (s : RandStream) (l : List Bullet)
    (h : l = [] ∨ ∃ vx vy : Int, st = ⟨some vx, some vy⟩) :
    (moveLoop m st s l).2.1 = st := by
  rcases h with h | ⟨vx, vy, h⟩
  · rw [h]
    rfl
  · rw [h]
    exact moveLoop_some_static m vx vy l s

theorem motionSteps_static (n : Nat) (w : Motion)
    (h1 : w.lol.bGroup = [] ∨ ∃ vx vy : Int, w.straight = ⟨some vx, some vy⟩)
    (h2 : w.meh.bGroup = [] ∨ ∃ vx vy : Int, w.circular = ⟨some vx, some vy⟩) :
    (motionSteps n w).straight = w.straight ∧ (motionSteps n w).circular = w.circular := by
  induction n generalizing w with
  | zero => exact ⟨rfl, rfl⟩
  | succ k ih =>
      have e1 : (motionStep w).straight = w.straight :=
        moveLoop_fixed_step 5 w.straight w.rng w.lol.bGroup h1
      have e2 : (motionStep w).circular = w.circular :=
        moveLoop_fixed_step 3 w.circular _ w.meh.bGroup h2
      have f1 : (motionStep w).lol.bGroup = [] ∨
          ∃ vx vy : Int, (motionStep w).straight = ⟨some vx, some vy⟩ :=
        moveLoop_fixed_after 5 w.straight w.rng w.lol.bGroup
      have f2 : (motionStep w).meh.bGroup = [] ∨
          ∃ vx vy : Int, (motionStep w).circular = ⟨some vx, some vy⟩ :=
        moveLoop_fixed_after 3 w.circular _ w.meh.bGroup
      have := ih (motionStep w) f1 f2
      show (motionSteps k (motionStep w)).straight = w.straight ∧
        (motionSteps k (motionStep w)).circular = w.circular
      rw [this.1, this.2]
      exact ⟨e1, e2⟩

theorem motionSteps_length (n : Nat) (w : Motion) :
    (motionSteps n w).lol.bGroup.length = w.lol.bGroup.length ∧
    (motionSteps n w).meh.bGroup.length = w.meh.bGroup.length := by
  induction n generalizing w with
  | zero => exact ⟨rfl, rfl⟩
  | succ k ih =>
      have h := ih (motionStep w)
      have l1 : (motionStep w).lol.bGroup.length = w.lol.bGroup.length :=
        moveLoop_length 5 w.lol.bGroup w.straight w.rng
      have l2 : (motionStep w).meh.bGroup.length = w.meh.bGroup.length :=
        moveLoop_length 3 w.meh.bGroup w.circular _
      show (motionSteps k (motionStep w)).lol.bGroup.length = w.lol.bGroup.length ∧
        (motionSteps k (motionStep w)).meh.bGroup.length = w.meh.bGroup.length
      rw [h.1, h.2]
      exact ⟨l1, l2⟩

theorem motionSteps_succ (n : Nat) (w : Motion) :
    motionSteps (n + 1) w = motionStep (motionSteps n w) := by
  induction n generalizing w with
  | zero => rfl
  | succ k ih =>
      show motionSteps (k + 1) (motionStep w) = motionStep (motionSteps k (motionStep w))
      exact ih (motionStep w)

theorem motionSteps_static_first (n : Nat) (w : Motion) :
    (motionSteps (n + 1) w).straight = (motionStep w).straight ∧
    (motionSteps (n + 1) w).circular = (motionStep w).circular :=
  motionSteps_static n (motionStep w)
    (moveLoop_fixed_after 5 w.straight w.rng w.lol.bGroup)
    (moveLoop_fixed_after 3 w.circular _ w.meh.bGroup)

theorem moveLoop_moved_by_static (m : Int) (st : StaticVel) (s : RandStream)
    (l : List Bullet) (vx vy : Int) (h : (moveLoop m st s l).2.1 = ⟨some vx, some vy⟩) :
    List.Forall₂ (fun old new => ∃ s1 : RandStream, new = (Bullet.move old vx vy s1).1)
      l (moveLoop m st s l).1 := by
  cases l with
  | nil => exact List.Forall₂.nil
  | cons x rest =>
      rw [moveLoop_cons_static] at h
      have hx : (staticInit st.bVelX m s).1 = vx := by
        injection h with h1 _
        exact Option.some.inj h1
      have hy : (staticInit st.bVelY m (staticInit st.bVelX m s).2).1 = vy := by
        injection h with _ h2
        exact Option.some.inj h2
      have := moveLoop_cons_moved m st s x rest
      rw [hx, hy] at this
      exact this

/-- An overlapping bullet is always detected: its own distance computation
does not overflow, and an earlier bullet can only end the loop with `true`. -/
theorem collisionDetection_true_of_overlap (self a : Player) (b : BulletGroup)
    (h : ∃ x ∈ b.bGroup, (a.mPosX - x.bPosX) ^ 2 + (a.mPosY - x.bPosY) ^ 2 < 1225) :
    (Player.collisionDetection self a b).1 = true := by
  unfold Player.collisionDetection
  rw [collisionLoop_true_iff]
  obtain ⟨x, hx, hlt⟩ := h
  refine ⟨x, hx, ?_⟩
  have he := distanceSquared_eq_of_lt a.mPosX a.mPosY x.bPosX x.bPosY (by linarith)
  show distanceSquared a.mPosX a.mPosY x.bPosX x.bPosY < 1225
  rw [he]
  exact hlt

/-- When no distance computation of the group overflows, a detected collision
is a real overlap. -/
theorem collisionDetection_overlap_of_true (self a : Player) (b : BulletGroup)
    (hr : ∀ x ∈ b.bGroup,
      (a.mPosX - x.bPosX) ^ 2 + (a.mPosY - x.bPosY) ^ 2 < 2147483648)
    (h : (Player.collisionDetection self a b).1 = true) :
    ∃ x ∈ b.bGroup, (a.mPosX - x.bPosX) ^ 2 + (a.mPosY - x.bPosY) ^ 2 < 1225 := by
  unfold Player.collisionDetection at h
  rw [collisionLoop_true_iff] at h
  obtain ⟨x, hx, hlt⟩ := h
  refine ⟨x, hx, ?_⟩
  have he := distanceSquared_eq_of_lt a.mPosX a.mPosY x.bPosX x.bPosY (hr x hx)
  have hlt2 : distanceSquared a.mPosX a.mPosY x.bPosX x.bPosY < 1225 := hlt
  rw [he] at hlt2
  exact hlt2

theorem collisionDetection_snd (self a : Player) (b : BulletGroup) :
    (Player.collisionDetection self a b).2 =
      if (Player.collisionDetection self a b).1 = true then
        { self with hits := self.hits + 1 }
      else self :=
  collisionLoop_snd self a b.bGroup

/-! ## The claims -/

/-- C1 (fails on the code): the clamping loop of `Player::handleEvent` does not
keep an Active player inside `[10, 630] × [10, 470]`.  A pointer-move to `(5,5)`
leaves the player at `(8,8)`, a pointer-move to `(-10,-10)` at `(5,5)` and a
pointer-move to `(635,475)` at `(632,472)`; only the move to `(0,0)` of the
examples ends at `(10,10)`. -/
theorem C1_clamp_leaves_player_outside :
    (Player.handleEvent ⟨true, 320, 240, 0⟩ (mouseMotion 5 5)).1 = ⟨true, 8, 8, 0⟩ ∧
    (Player.handleEvent ⟨true, 320, 240, 0⟩ (mouseMotion (-10) (-10))).1 = ⟨true, 5, 5, 0⟩ ∧
    (Player.handleEvent ⟨true, 320, 240, 0⟩ (mouseMotion 635 475)).1 = ⟨true, 632, 472, 0⟩ ∧
    (Player.handleEvent ⟨true, 320, 240, 0⟩ (mouseMotion 0 0)).1 = ⟨true, 10, 10, 0⟩ := by
  decide

/-- C3: one call of `Player::collisionDetection` adds exactly 1 to `hits` when it
returns true, however many bullets overlap, and leaves `hits` unchanged when it
returns false; `hits` never decreases and no other member changes. -/
theorem C3_hits_increase_by_result :
    (∀ (self a : Player) (b : BulletGroup),
      (Player.collisionDetection self a b).2.hits =
          self.hits + (if (Player.collisionDetection self a b).1 = true then 1 else 0) ∧
      self.hits ≤ (Player.collisionDetection self a b).2.hits ∧
      (Player.collisionDetection self a b).2 =
          { self with hits := (Player.collisionDetection self a b).2.hits }) ∧
    Player.collisionDetection ⟨true, 100, 100, 7⟩ ⟨true, 100, 100, 7⟩
      ⟨[⟨100, 125⟩, ⟨100, 100⟩, ⟨90, 110⟩]⟩ = (true, ⟨true, 100, 100, 8⟩) := by
  refine ⟨?_, by decide⟩
  intro self a b
  unfold Player.collisionDetection
  rw [collisionLoop_snd]
  split_ifs <;> simp

/-- C4: with `q = p + v`, `Bullet::move` respawns the bullet exactly when
`q.x > 640` or `q.y > 480`, at the point `(r1 % 640, r2 % 480)` of the next two
draws, which lies in `[0,640) × [0,480)`; otherwise the new position is `q`, also
when a coordinate of `q` is negative, and no draw is consumed. -/
theorem C4_move_respawns_only_beyond_upper_bound (b : Bullet) (x y : Int)
    (s : RandStream) :
    ((b.bPosX + x > 640 ∨ b.bPosY + y > 480) →
      (b.move x y s).1 = ⟨Int.ofNat (s 0 % 640), Int.ofNat (s 1 % 480)⟩ ∧
      0 ≤ (b.move x y s).1.bPosX ∧ (b.move x y s).1.bPosX < 640 ∧
      0 ≤ (b.move x y s).1.bPosY ∧ (b.move x y s).1.bPosY < 480) ∧
    (¬ (b.bPosX + x > 640 ∨ b.bPosY + y > 480) →
      b.move x y s = (⟨b.bPosX + x, b.bPosY + y⟩, s)) := by
  constructor
  · intro h
    have hm : (b.move x y s).1 = ⟨Int.ofNat (s 0 % 640), Int.ofNat (s 1 % 480)⟩ := by
      simp only [Bullet.move, SCREEN_WIDTH, SCREEN_HEIGHT, rand]
      rw [if_pos h]
      rfl
    rw [hm]
    refine ⟨rfl, ?_, ?_, ?_, ?_⟩
    · exact Int.ofNat_nonneg _
    · have := Nat.mod_lt (s 0) (show 0 < 640 by norm_num)
      show ((s 0 % 640 : Nat) : Int) < 640
      omega
    · exact Int.ofNat_nonneg _
    · have := Nat.mod_lt (s 1) (show 0 < 480 by norm_num)
      show ((s 1 % 480 : Nat) : Int) < 480
      omega
  · intro h
    simp only [Bullet.move, SCREEN_WIDTH, SCREEN_HEIGHT]
    rw [if_neg h]

/-- C4, at concrete bullets: the bullet at `(639,100)` moved by `(3,3)` is respawned
at the drawn point, and the bullet at `(-3,100)` moved by `(-1,3)` goes to
`(-4,103)` without a respawn. -/
theorem C4_move_witness :
    (639 + 3 > (640 : Int) ∨ 100 + 3 > (480 : Int)) ∧
    (Bullet.move ⟨639, 100⟩ 3 3 (fun n => 1000 + 7 * n)).1 = ⟨360, 47⟩ ∧
    ¬ ((-3) + (-1) > (640 : Int) ∨ 100 + 3 > (480 : Int)) ∧
    (Bullet.move ⟨-3, 100⟩ (-1) 3 (fun n => 1000 + 7 * n)).1 = ⟨-4, 103⟩ :=
  ⟨by decide,
   ((C4_move_respawns_only_beyond_upper_bound ⟨639, 100⟩ 3 3
      (fun n => 1000 + 7 * n)).1 (by decide)).1,
   by decide,
   congrArg Prod.fst ((C4_move_respawns_only_beyond_upper_bound ⟨-3, 100⟩ (-1) 3
      (fun n => 1000 + 7 * n)).2 (by decide))⟩

/-- C5: a Waiting player that receives a left-button release event becomes Active
at exactly the coordinates of the event; `hits` is unchanged. -/
theorem C5_release_starts_player_at_event (p : Player) (e : SDL_Event)
    (hw : p.start = false) (ht : e.type = SDL_MOUSEBUTTONUP)
    (hb : e.button.button = SDL_BUTTON_LEFT) :
    p.handleEvent e = (⟨true, e.button.x, e.button.y, p.hits⟩, e) := by
  have he : ({ e with type := SDL_MOUSEBUTTONUP } : SDL_Event) = e := by
    rw [← ht]
  have h0 : SDL_MOUSEBUTTONUP ≠ 0 := by decide
  have hm : SDL_MOUSEBUTTONUP ≠ SDL_MOUSEMOTION := by decide
  simp [Player.handleEvent, hw, hb, he, ht, h0, hm]

/-- C5, scenario of the specification: the initial player at `(320,240)` that
receives a release at `(50,50)` is Active at `(50,50)`. -/
theorem C5_release_witness :
    Player.new = ⟨false, 320, 240, 0⟩ ∧
    (Player.new.handleEvent (leftButtonUp 50 50)).1 = ⟨true, 50, 50, 0⟩ :=
  ⟨by decide,
   congrArg Prod.fst
     (C5_release_starts_player_at_event Player.new (leftButtonUp 50 50) rfl rfl rfl)⟩

/-- C6 (fails on the code): the test `e.type = SDL_MOUSEBUTTONUP` of
`Player::handleEvent` is an assignment, so the kind of the event is not checked.
A Waiting player that receives a left-button press at `(50,50)` becomes Active at
`(50,50)`. -/
theorem C6_press_starts_waiting_player :
    Player.new.start = false ∧
    (leftButtonDown 50 50).type = SDL_MOUSEBUTTONDOWN ∧
    (leftButtonDown 50 50).type ≠ SDL_MOUSEBUTTONUP ∧
    (Player.new.handleEvent (leftButtonDown 50 50)).1 = ⟨true, 50, 50, 0⟩ := by
  decide

/-- C7: for a well-formed image, `Start::click` releases the image (it was
loaded before the call and is null after it) exactly when the event is a
left-button press with `x < mx < x + width` and `y < my < y + height`; then the
image is null with width and height 0, and in every other case the image is
unchanged. -/
theorem C7_click_dismisses_iff_press_strictly_inside (s : Start) (t : Texture)
    (e : SDL_Event) (hwf : t.wf) :
    ((t.texture ≠ none ∧ (s.click t e).2.texture = none) ↔
      (e.type = SDL_MOUSEBUTTONDOWN ∧ e.button.button = SDL_BUTTON_LEFT ∧
        s.x < e.button.x ∧ e.button.x < s.x + t.width ∧
        s.y < e.button.y ∧ e.button.y < s.y + t.height)) ∧
    ((e.type = SDL_MOUSEBUTTONDOWN ∧ e.button.button = SDL_BUTTON_LEFT ∧
        s.x < e.button.x ∧ e.button.x < s.x + t.width ∧
        s.y < e.button.y ∧ e.button.y < s.y + t.height) →
      (s.click t e).2 = ⟨none, 0, 0⟩) ∧
    (¬ (e.type = SDL_MOUSEBUTTONDOWN ∧ e.button.button = SDL_BUTTON_LEFT ∧
        s.x < e.button.x ∧ e.button.x < s.x + t.width ∧
        s.y < e.button.y ∧ e.button.y < s.y + t.height) →
      (s.click t e).2 = t) := by
  have hin : (e.type = SDL_MOUSEBUTTONDOWN ∧ e.button.button = SDL_BUTTON_LEFT ∧
        s.x < e.button.x ∧ e.button.x < s.x + t.width ∧
        s.y < e.button.y ∧ e.button.y < s.y + t.height) →
      (s.click t e).2 = t.free ∧ t.texture ≠ none := by
    rintro ⟨h1, h2, h3, h4, h5, h6⟩
    constructor
    · simp only [Start.click, Start.getX, Start.getY, Texture.getWidth, Texture.getHeight]
      rw [if_pos h1, if_pos h2, if_pos ⟨h3, h4, h5, h6⟩]
    · intro hnull
      have := hwf hnull
      omega
  have hout : ¬ (e.type = SDL_MOUSEBUTTONDOWN ∧ e.button.button = SDL_BUTTON_LEFT ∧
        s.x < e.button.x ∧ e.button.x < s.x + t.width ∧
        s.y < e.button.y ∧ e.button.y < s.y + t.height) →
      (s.click t e).2 = t := by
    intro hc
    simp only [Start.click, Start.getX, Start.getY, Texture.getWidth, Texture.getHeight]
    split_ifs with h1 h2 h3
    · exact absurd ⟨h1, h2, h3⟩ hc
    · rfl
    · rfl
    · rfl
  refine ⟨⟨?_, ?_⟩, ?_, hout⟩
  · rintro ⟨hload, hnull⟩
    by_contra hc
    rw [hout hc] at hnull
    exact hload hnull
  · intro hc
    obtain ⟨hfree, hload⟩ := hin hc
    exact ⟨hload, by rw [hfree]; exact t.free_texture⟩
  · intro hc
    obtain ⟨hfree, hload⟩ := hin hc
    rw [hfree]
    simp [Texture.free, hload]

/-- C7, at a concrete start screen: a `200 x 100` image centred at `(220,190)` is
released by a left press at `(320,240)` and kept by a left press on the left
edge `(220,240)` and by a left release at `(320,240)`. -/
theorem C7_click_witness :
    Texture.wf ⟨some 1, 200, 100⟩ ∧
    (Start.click (Start.new ⟨some 1, 200, 100⟩) ⟨some 1, 200, 100⟩
      (leftButtonDown 320 240)).2 = ⟨none, 0, 0⟩ ∧
    (Start.click (Start.new ⟨some 1, 200, 100⟩) ⟨some 1, 200, 100⟩
      (leftButtonDown 220 240)).2 = ⟨some 1, 200, 100⟩ ∧
    (Start.click (Start.new ⟨some 1, 200, 100⟩) ⟨some 1, 200, 100⟩
      (leftButtonUp 320 240)).2 = ⟨some 1, 200, 100⟩ :=
  ⟨(by intro h; cases h),
   (C7_click_dismisses_iff_press_strictly_inside (Start.new ⟨some 1, 200, 100⟩)
      ⟨some 1, 200, 100⟩ (leftButtonDown 320 240) (by intro h; cases h)).2.1 (by decide),
   (C7_click_dismisses_iff_press_strictly_inside (Start.new ⟨some 1, 200, 100⟩)
      ⟨some 1, 200, 100⟩ (leftButtonDown 220 240) (by intro h; cases h)).2.2 (by decide),
   (C7_click_dismisses_iff_press_strictly_inside (Start.new ⟨some 1, 200, 100⟩)
      ⟨some 1, 200, 100⟩ (leftButtonUp 320 240) (by intro h; cases h)).2.2 (by decide)⟩

/-- C8: once the image of the start screen is released, `Start::click` leaves it
exactly as it is for every event, and so does the event loop of `main` for every
sequence of events: the dismissal is permanent. -/
theorem C8_dismissal_is_permanent (t : Texture) (hd : t.texture = none) :
    (∀ (s : Start) (e : SDL_Event), (s.click t e).2 = t) ∧
    (∀ (es : List SDL_Event) (q : Bool) (s : Start) (p : Player),
      (pollLoop ⟨q, s, t, p⟩ es).start = t) := by
  refine ⟨fun s e => Start.click_of_null s t e hd, ?_⟩
  intro es
  induction es with
  | nil => intro q s p; rfl
  | cons e es ih =>
      intro q s p
      have hstep : pollStep ⟨q, s, t, p⟩ e
          = ⟨(pollStep ⟨q, s, t, p⟩ e).quit, (pollStep ⟨q, s, t, p⟩ e).s, t,
              (pollStep ⟨q, s, t, p⟩ e).player⟩ := by
        simp only [pollStep, Start.click_of_null s t e hd]
      show (pollLoop (pollStep ⟨q, s, t, p⟩ e) es).start = t
      rw [hstep]
      exact ih _ _ _

/-- C8, at a concrete start screen: after the press at `(320,240)` has released
the `200 x 100` image, a second press at `(320,240)` changes nothing. -/
theorem C8_dismissal_witness :
    (Start.click (Start.new ⟨some 1, 200, 100⟩) ⟨some 1, 200, 100⟩
      (leftButtonDown 320 240)).2.texture = none ∧
    (Start.click (Start.new ⟨some 1, 200, 100⟩)
      (Start.click (Start.new ⟨some 1, 200, 100⟩) ⟨some 1, 200, 100⟩
        (leftButtonDown 320 240)).2 (leftButtonDown 320 240)).2
      = (Start.click (Start.new ⟨some 1, 200, 100⟩) ⟨some 1, 200, 100⟩
        (leftButtonDown 320 240)).2 :=
  ⟨by decide,
   (C8_dismissal_is_permanent
      (Start.click (Start.new ⟨some 1, 200, 100⟩) ⟨some 1, 200, 100⟩
        (leftButtonDown 320 240)).2 (by decide)).1
      (Start.new ⟨some 1, 200, 100⟩) (leftButtonDown 320 240)⟩

/-- C9: an Active player stays Active: `Player::handleEvent` leaves `start` true
for every event, and so does the event loop of `main` for every sequence of
events. -/
theorem C9_active_is_terminal (p : Player) (h : p.start = true) :
    (∀ e : SDL_Event, (p.handleEvent e).1.start = true) ∧
    (∀ (es : List SDL_Event) (q : Bool) (s : Start) (t : Texture),
      (pollLoop ⟨q, s, t, p⟩ es).player.start = true) := by
  refine ⟨fun e => Player.handleEvent_active p e h, ?_⟩
  intro es
  induction es generalizing p with
  | nil => intro q s t; exact h
  | cons e es ih =>
      intro q s t
      show (pollLoop (pollStep ⟨q, s, t, p⟩ e) es).player.start = true
      exact ih (p.handleEvent e).1 (Player.handleEvent_active p e h) _ _ _

/-- C9, at a concrete player: an Active player at `(50,50)` that receives a
left-button release at `(70,70)` is still Active. -/
theorem C9_active_witness :
    (Player.handleEvent ⟨true, 50, 50, 0⟩ (leftButtonUp 70 70)).1.start = true :=
  (C9_active_is_terminal ⟨true, 50, 50, 0⟩ rfl).1 (leftButtonUp 70 70)

/-- C10 (fails on the code): the pacing of `main` compares the frame-start
timestamp itself, not the elapsed time, with the budget: the delay is
`33 - capTimer` when `capTimer < 33` and there is none otherwise.  A frame that
starts at tick 1000 and ends at tick 1010 is not delayed (23 ms by the
specification), and a frame that starts at tick 5 and ends at tick 50 is
delayed by 28 ms (no delay by the specification). -/
theorem C10_delay_uses_frame_start_timestamp :
    SCREEN_TICK_PER_FRAME = 33 ∧
    (∀ capTimer : Nat,
      frameDelay capTimer = if capTimer < 33 then some (33 - capTimer) else none) ∧
    frameDelay 1000 = none ∧ specFrameDelay 1000 1010 = some 23 ∧
    frameDelay 5 = some 28 ∧ specFrameDelay 5 50 = none := by
  refine ⟨by decide, ?_, by decide, by decide, by decide, by decide⟩
  intro capTimer
  have h33 : toUInt SCREEN_TICK_PER_FRAME = 33 := by decide
  unfold frameDelay
  rw [h33]
  split_ifs with hlt
  · congr 1
    omega
  · rfl

/-- C11: sample-once drift.  The first call of `BulletGroup::moveStraight` on a
non-empty group samples the velocity from the next two draws (`% 5 - 1`), and
that of `BulletGroup::moveCircular` likewise (`% 3 - 1`); a call that finds the
statics set never re-samples them; in every call all members are advanced by the
one vector held by the statics; and over the frames of `main` the statics after
every frame are those after the first frame, every later advance of `lol` and
`meh` using that vector. -/
theorem C11_velocity_sampled_once_and_shared :
    (∀ (x : Bullet) (rest : List Bullet) (s : RandStream),
      (BulletGroup.moveStraight ⟨x :: rest⟩ ⟨none, none⟩ s).2.1 =
        ⟨some (Int.ofNat (s 0 % 5) - 1), some (Int.ofNat (s 1 % 5) - 1)⟩ ∧
      (BulletGroup.moveCircular ⟨x :: rest⟩ ⟨none, none⟩ s).2.1 =
        ⟨some (Int.ofNat (s 0 % 3) - 1), some (Int.ofNat (s 1 % 3) - 1)⟩) ∧
    (∀ (g : BulletGroup) (vx vy : Int) (s : RandStream),
      (g.moveStraight ⟨some vx, some vy⟩ s).2.1 = ⟨some vx, some vy⟩ ∧
      (g.moveCircular ⟨some vx, some vy⟩ s).2.1 = ⟨some vx, some vy⟩) ∧
    (∀ (g : BulletGroup) (st : StaticVel) (s : RandStream) (vx vy : Int),
      ((g.moveStraight st s).2.1 = ⟨some vx, some vy⟩ →
        List.Forall₂ (fun old new => ∃ s1 : RandStream, new = (Bullet.move old vx vy s1).1)
          g.bGroup (g.moveStraight st s).1.bGroup) ∧
      ((g.moveCircular st s).2.1 = ⟨some vx, some vy⟩ →
        List.Forall₂ (fun old new => ∃ s1 : RandStream, new = (Bullet.move old vx vy s1).1)
          g.bGroup (g.moveCircular st s).1.bGroup)) ∧
    (∀ (w : Motion) (n : Nat),
      (motionSteps (n + 1) w).straight = (motionStep w).straight ∧
      (motionSteps (n + 1) w).circular = (motionStep w).circular) ∧
    (∀ (w : Motion) (vx vy : Int) (n : Nat),
      ((motionStep w).straight = ⟨some vx, some vy⟩ →
        List.Forall₂ (fun old new => ∃ s1 : RandStream, new = (Bullet.move old vx vy s1).1)
          (motionSteps n w).lol.bGroup (motionSteps (n + 1) w).lol.bGroup) ∧
      ((motionStep w).circular = ⟨some vx, some vy⟩ →
        List.Forall₂ (fun old new => ∃ s1 : RandStream, new = (Bullet.move old vx vy s1).1)
          (motionSteps n w).meh.bGroup (motionSteps (n + 1) w).meh.bGroup)) := by
  refine ⟨?_, ?_, ?_, ?_, ?_⟩
  · intro x rest s
    exact ⟨moveLoop_cons_static 5 ⟨none, none⟩ s x rest,
      moveLoop_cons_static 3 ⟨none, none⟩ s x rest⟩
  · intro g vx vy s
    exact ⟨moveLoop_some_static 5 vx vy g.bGroup s, moveLoop_some_static 3 vx vy g.bGroup s⟩
  · intro g st s vx vy
    exact ⟨moveLoop_moved_by_static 5 st s g.bGroup vx vy,
      moveLoop_moved_by_static 3 st s g.bGroup vx vy⟩
  · intro w n
    exact motionSteps_static_first n w
  · intro w vx vy n
    have hfirst := motionSteps_static_first n w
    have hsucc := motionSteps_succ n w
    constructor
    · intro h
      have hs : (motionStep (motionSteps n w)).straight = ⟨some vx, some vy⟩ := by
        rw [← hsucc, hfirst.1, h]
      rw [hsucc]
      exact moveLoop_moved_by_static 5 _ _ _ vx vy hs
    · intro h
      have hs : (motionStep (motionSteps n w)).circular = ⟨some vx, some vy⟩ := by
        rw [← hsucc, hfirst.2, h]
      rw [hsucc]
      exact moveLoop_moved_by_static 3 _ _ _ vx vy hs

/-- C11, at a concrete run: two groups of two bullets and the draws
`1003, 1010, ...`: the first frame samples `(2,-1)` for `moveStraight` and
`(1,-1)` for `moveCircular`, and the fourth frame still advances every bullet of
`lol` by `(2,-1)` and every bullet of `meh` by `(1,-1)`. -/
theorem C11_velocity_witness :
    (motionStep ⟨⟨[⟨1, 1⟩, ⟨639, 479⟩]⟩, ⟨[⟨1, 1⟩, ⟨639, 479⟩]⟩, ⟨none, none⟩,
      ⟨none, none⟩, fun n => 1003 + 7 * n⟩).straight = ⟨some 2, some (-1)⟩ ∧
    (motionStep ⟨⟨[⟨1, 1⟩, ⟨639, 479⟩]⟩, ⟨[⟨1, 1⟩, ⟨639, 479⟩]⟩, ⟨none, none⟩,
      ⟨none, none⟩, fun n => 1003 + 7 * n⟩).circular = ⟨some 1, some (-1)⟩ ∧
    List.Forall₂ (fun old new => ∃ s1 : RandStream, new = (Bullet.move old 2 (-1) s1).1)
      (motionSteps 3 ⟨⟨[⟨1, 1⟩, ⟨639, 479⟩]⟩, ⟨[⟨1, 1⟩, ⟨639, 479⟩]⟩, ⟨none, none⟩,
        ⟨none, none⟩, fun n => 1003 + 7 * n⟩).lol.bGroup
      (motionSteps 4 ⟨⟨[⟨1, 1⟩, ⟨639, 479⟩]⟩, ⟨[⟨1, 1⟩, ⟨639, 479⟩]⟩, ⟨none, none⟩,
        ⟨none, none⟩, fun n => 1003 + 7 * n⟩).lol.bGroup ∧
    List.Forall₂ (fun old new => ∃ s1 : RandStream, new = (Bullet.move old 1 (-1) s1).1)
      (motionSteps 3 ⟨⟨[⟨1, 1⟩, ⟨639, 479⟩]⟩, ⟨[⟨1, 1⟩, ⟨639, 479⟩]⟩, ⟨none, none⟩,
        ⟨none, none⟩, fun n => 1003 + 7 * n⟩).meh.bGroup
      (motionSteps 4 ⟨⟨[⟨1, 1⟩, ⟨639, 479⟩]⟩, ⟨[⟨1, 1⟩, ⟨639, 479⟩]⟩, ⟨none, none⟩,
        ⟨none, none⟩, fun n => 1003 + 7 * n⟩).meh.bGroup :=
  ⟨by decide, by decide,
   (C11_velocity_sampled_once_and_shared.2.2.2.2 _ 2 (-1) 3).1 (by decide),
   (C11_velocity_sampled_once_and_shared.2.2.2.2 _ 1 (-1) 3).2 (by decide)⟩

/-- C12: for every draw, the velocity components sampled by
`BulletGroup::moveStraight` lie in `[-1,3]` and those sampled by
`BulletGroup::moveCircular` in `[-1,1]`, and every pair of values of these
ranges is sampled for some draws. -/
theorem C12_sampled_velocity_ranges (x : Bullet) (rest : List Bullet) :
    (∀ s : RandStream, ∃ vx vy : Int,
      (BulletGroup.moveStraight ⟨x :: rest⟩ ⟨none, none⟩ s).2.1 = ⟨some vx, some vy⟩ ∧
      -1 ≤ vx ∧ vx ≤ 3 ∧ -1 ≤ vy ∧ vy ≤ 3) ∧
    (∀ s : RandStream, ∃ vx vy : Int,
      (BulletGroup.moveCircular ⟨x :: rest⟩ ⟨none, none⟩ s).2.1 = ⟨some vx, some vy⟩ ∧
      -1 ≤ vx ∧ vx ≤ 1 ∧ -1 ≤ vy ∧ vy ≤ 1) ∧
    (∀ vx vy : Int, (-1 ≤ vx ∧ vx ≤ 3) → (-1 ≤ vy ∧ vy ≤ 3) →
      ∃ s : RandStream,
        (BulletGroup.moveStraight ⟨x :: rest⟩ ⟨none, none⟩ s).2.1 = ⟨some vx, some vy⟩) ∧
    (∀ vx vy : Int, (-1 ≤ vx ∧ vx ≤ 1) → (-1 ≤ vy ∧ vy ≤ 1) →
      ∃ s : RandStream,
        (BulletGroup.moveCircular ⟨x :: rest⟩ ⟨none, none⟩ s).2.1 = ⟨some vx, some vy⟩) := by
  have hs : ∀ (m : Nat) (s : RandStream),
      (moveLoop (Int.ofNat m) ⟨none, none⟩ s (x :: rest)).2.1 =
        ⟨some (Int.ofNat (s 0 % m) - 1), some (Int.ofNat (s 1 % m) - 1)⟩ :=
    fun m s => moveLoop_cons_static (Int.ofNat m) ⟨none, none⟩ s x rest
  have hattain : ∀ (m : Nat) (vx vy : Int), 0 < m → (-1 ≤ vx ∧ vx + 1 < m) →
      (-1 ≤ vy ∧ vy + 1 < m) → ∃ s : RandStream,
        (moveLoop (Int.ofNat m) ⟨none, none⟩ s (x :: rest)).2.1 = ⟨some vx, some vy⟩ := by
    intro m vx vy _ hx hy
    obtain ⟨a, ha⟩ := Int.eq_ofNat_of_zero_le (show 0 ≤ vx + 1 by omega)
    obtain ⟨b, hb⟩ := Int.eq_ofNat_of_zero_le (show 0 ≤ vy + 1 by omega)
    refine ⟨fun n => if n = 0 then a else b, ?_⟩
    rw [hs]
    have ha1 : a % m = a := Nat.mod_eq_of_lt (by omega)
    have hb1 : b % m = b := Nat.mod_eq_of_lt (by omega)
    simp only [if_pos, if_neg, one_ne_zero, if_false, if_true, ha1, hb1]
    have e1 : Int.ofNat a - 1 = vx := by
      show (a : Int) - 1 = vx
      omega
    have e2 : Int.ofNat b - 1 = vy := by
      show (b : Int) - 1 = vy
      omega
    rw [e1, e2]
  refine ⟨?_, ?_, ?_, ?_⟩
  · intro s
    refine ⟨_, _, hs 5 s, ?_⟩
    have h0 := Nat.mod_lt (s 0) (show 0 < 5 by norm_num)
    have h1 := Nat.mod_lt (s 1) (show 0 < 5 by norm_num)
    show -1 ≤ ((s 0 % 5 : Nat) : Int) - 1 ∧ ((s 0 % 5 : Nat) : Int) - 1 ≤ 3 ∧
      -1 ≤ ((s 1 % 5 : Nat) : Int) - 1 ∧ ((s 1 % 5 : Nat) : Int) - 1 ≤ 3
    omega
  · intro s
    refine ⟨_, _, hs 3 s, ?_⟩
    have h0 := Nat.mod_lt (s 0) (show 0 < 3 by norm_num)
    have h1 := Nat.mod_lt (s 1) (show 0 < 3 by norm_num)
    show -1 ≤ ((s 0 % 3 : Nat) : Int) - 1 ∧ ((s 0 % 3 : Nat) : Int) - 1 ≤ 1 ∧
      -1 ≤ ((s 1 % 3 : Nat) : Int) - 1 ∧ ((s 1 % 3 : Nat) : Int) - 1 ≤ 1
    omega
  · intro vx vy hx hy
    exact hattain 5 vx vy (by norm_num) ⟨hx.1, by omega⟩ ⟨hy.1, by omega⟩
  · intro vx vy hx hy
    exact hattain 3 vx vy (by norm_num) ⟨hx.1, by omega⟩ ⟨hy.1, by omega⟩

/-- C12, at concrete values: the pair `(3,-1)` is sampled by `moveStraight` and
the pair `(-1,1)` by `moveCircular`, for suitable draws. -/
theorem C12_sampled_velocity_witness :
    (∃ s : RandStream,
      (BulletGroup.moveStraight ⟨[⟨1, 1⟩, ⟨2, 2⟩]⟩ ⟨none, none⟩ s).2.1 =
        ⟨some 3, some (-1)⟩) ∧
    (∃ s : RandStream,
      (BulletGroup.moveCircular ⟨[⟨1, 1⟩, ⟨2, 2⟩]⟩ ⟨none, none⟩ s).2.1 =
        ⟨some (-1), some 1⟩) :=
  ⟨(C12_sampled_velocity_ranges ⟨1, 1⟩ [⟨2, 2⟩]).2.2.1 3 (-1) (by decide) (by decide),
   (C12_sampled_velocity_ranges ⟨1, 1⟩ [⟨2, 2⟩]).2.2.2 (-1) 1 (by decide) (by decide)⟩

/-- C13 (as stated, fails on the code): with the player at `(630,470)` and the
group `lol` drifted for 33000 frames, no bullet of either group overlaps the
player, but the 32-bit distance computation of the first bullet of `lol`
overflows: the collision step counts a hit and regenerates the score. -/
theorem C13_overflow_counterexample :
    collisionStep ⟨true, 630, 470, 0⟩ driftedGroup cornerFreeGroup =
      (⟨true, 630, 470, 1⟩, some 1) ∧
    ¬ ((∃ x ∈ driftedGroup.bGroup,
          (630 - x.bPosX) ^ 2 + (470 - x.bPosY) ^ 2 < (1225 : Int)) ∨
        (∃ x ∈ cornerFreeGroup.bGroup,
          (630 - x.bPosX) ^ 2 + (470 - x.bPosY) ^ 2 < (1225 : Int))) := by
  decide

/-- C13 (amended): in the collision step of a frame of `main`, `hits` grows by
exactly 1 when the player overlaps a bullet of `lol` or of `meh` (also when it
overlaps bullets of both); it grows by 0 when the player overlaps no bullet and
every bullet of both groups has squared centre distance below `2^31` (no
overflow of the 32-bit distance computation); it never grows by more than 1,
nothing else of the player changes, and `loadScore` is called, with the new
count, exactly when `hits` grew. -/
theorem C13_at_most_one_hit_per_frame (player : Player) (lol meh : BulletGroup) :
    (((∃ x ∈ lol.bGroup,
          (player.mPosX - x.bPosX) ^ 2 + (player.mPosY - x.bPosY) ^ 2 < 1225) ∨
        (∃ x ∈ meh.bGroup,
          (player.mPosX - x.bPosX) ^ 2 + (player.mPosY - x.bPosY) ^ 2 < 1225)) →
      collisionStep player lol meh =
        ({ player with hits := player.hits + 1 }, some (player.hits + 1))) ∧
    ((∀ x ∈ lol.bGroup,
        (player.mPosX - x.bPosX) ^ 2 + (player.mPosY - x.bPosY) ^ 2 < 2147483648) →
      (∀ x ∈ meh.bGroup,
        (player.mPosX - x.bPosX) ^ 2 + (player.mPosY - x.bPosY) ^ 2 < 2147483648) →
      ¬ ((∃ x ∈ lol.bGroup,
          (player.mPosX - x.bPosX) ^ 2 + (player.mPosY - x.bPosY) ^ 2 < 1225) ∨
        (∃ x ∈ meh.bGroup,
          (player.mPosX - x.bPosX) ^ 2 + (player.mPosY - x.bPosY) ^ 2 < 1225)) →
      collisionStep player lol meh = (player, none)) ∧
    ((collisionStep player lol meh).2 ≠ none ↔
      (collisionStep player lol meh).1.hits = player.hits + 1) ∧
    ((collisionStep player lol meh).1.hits = player.hits ∨
      (collisionStep player lol meh).1.hits = player.hits + 1) ∧
    (collisionStep player lol meh).1 =
      { player with hits := (collisionStep player lol meh).1.hits } := by
  have o1 := collisionDetection_true_of_overlap player player lol
  have o2 := collisionDetection_true_of_overlap player player meh
  have t1 := collisionDetection_overlap_of_true player player lol
  have t2 := collisionDetection_overlap_of_true player player meh
  have s1 := collisionDetection_snd player player lol
  have s2 := collisionDetection_snd player player meh
  by_cases h1 : (Player.collisionDetection player player lol).1 = true
  · have hstep : collisionStep player lol meh =
        ({ player with hits := player.hits + 1 }, some (player.hits + 1)) := by
      rw [if_pos h1] at s1
      simp only [collisionStep, if_pos h1, s1]
    refine ⟨fun _ => hstep, fun r1 _ hno => absurd (Or.inl (t1 r1 h1)) hno, ?_, ?_, ?_⟩
    · rw [hstep]
      simp
    · rw [hstep]
      exact Or.inr rfl
    · rw [hstep]
  · rw [if_neg h1] at s1
    by_cases h2 : (Player.collisionDetection player player meh).1 = true
    · have hstep : collisionStep player lol meh =
          ({ player with hits := player.hits + 1 }, some (player.hits + 1)) := by
        rw [if_pos h2] at s2
        simp only [collisionStep, if_neg h1, s1, if_pos h2, s2]
      refine ⟨fun _ => hstep, fun _ r2 hno => absurd (Or.inr (t2 r2 h2)) hno, ?_, ?_, ?_⟩
      · rw [hstep]
        simp
      · rw [hstep]
        exact Or.inr rfl
      · rw [hstep]
    · have hstep : collisionStep player lol meh = (player, none) := by
        rw [if_neg h2] at s2
        simp only [collisionStep, if_neg h1, s1, if_neg h2, s2]
      refine ⟨?_, fun _ _ _ => hstep, ?_, ?_, ?_⟩
      · rintro (h | h)
        · exact absurd (o1 h) h1
        · exact absurd (o2 h) h2
      · rw [hstep]
        simp
      · rw [hstep]
        exact Or.inl rfl
      · rw [hstep]

/-- C13, at concrete frames: a player at `(100,100)` with 4 hits that overlaps a
bullet of each group ends the step with 5 hits and a regenerated score, and one
that overlaps no bullet, the bullets being on the screen, keeps 4 hits with no
regeneration. -/
theorem C13_one_hit_witness :
    collisionStep ⟨true, 100, 100, 4⟩ ⟨[⟨100, 125⟩]⟩ ⟨[⟨100, 110⟩]⟩ =
      (⟨true, 100, 100, 5⟩, some 5) ∧
    collisionStep ⟨true, 100, 100, 4⟩ ⟨[⟨300, 125⟩]⟩ ⟨[⟨300, 110⟩]⟩ =
      (⟨true, 100, 100, 4⟩, none) :=
  ⟨(C13_at_most_one_hit_per_frame ⟨true, 100, 100, 4⟩ ⟨[⟨100, 125⟩]⟩ ⟨[⟨100, 110⟩]⟩).1
      (Or.inl ⟨⟨100, 125⟩, List.mem_singleton.mpr rfl, by decide⟩),
   (C13_at_most_one_hit_per_frame ⟨true, 100, 100, 4⟩ ⟨[⟨300, 125⟩]⟩ ⟨[⟨300, 110⟩]⟩).2.1
      (by decide) (by decide) (by decide)⟩

/-- C14: a newly constructed `BulletGroup` holds exactly 10 bullets, each with
`0 <= x < 640` and `0 <= y < 480`; `moveStraight` and `moveCircular` keep the
number of bullets of every group, so a constructed group has 10 bullets after
every call and after any number of frames. -/
theorem C14_group_has_ten_bullets :
    (∀ s : RandStream,
      (BulletGroup.new s).1.bGroup.length = 10 ∧
      ∀ b ∈ (BulletGroup.new s).1.bGroup,
        (0 ≤ b.bPosX ∧ b.bPosX < 640) ∧ (0 ≤ b.bPosY ∧ b.bPosY < 480)) ∧
    (∀ (g : BulletGroup) (st : StaticVel) (s : RandStream),
      (g.moveStraight st s).1.bGroup.length = g.bGroup.length ∧
      (g.moveCircular st s).1.bGroup.length = g.bGroup.length) ∧
    (∀ (s1 s2 s3 : RandStream) (st1 st2 : StaticVel) (n : Nat),
      (motionSteps n ⟨(BulletGroup.new s1).1, (BulletGroup.new s2).1, st1, st2,
        s3⟩).lol.bGroup.length = 10 ∧
      (motionSteps n ⟨(BulletGroup.new s1).1, (BulletGroup.new s2).1, st1, st2,
        s3⟩).meh.bGroup.length = 10) := by
  have hlen : ∀ s : RandStream, (BulletGroup.new s).1.bGroup.length = 10 := by
    intro s
    exact bulletGroupFill_length 10 [] s
  refine ⟨?_, ?_, ?_⟩
  · intro s
    refine ⟨hlen s, ?_⟩
    exact bulletGroupFill_forall
      (fun b => (0 ≤ b.bPosX ∧ b.bPosX < 640) ∧ (0 ≤ b.bPosY ∧ b.bPosY < 480))
      Bullet.new_bounds 10 [] s (by intro b hb; cases hb)
  · intro g st s
    exact ⟨moveLoop_length 5 g.bGroup st s, moveLoop_length 3 g.bGroup st s⟩
  · intro s1 s2 s3 st1 st2 n
    have h := motionSteps_length n
      ⟨(BulletGroup.new s1).1, (BulletGroup.new s2).1, st1, st2, s3⟩
    rw [h.1, h.2]
    exact ⟨hlen s1, hlen s2⟩

/-- C15: for an Active player and a pointer-move event whose coordinates satisfy
`10 <= x <= 630` and `10 <= y <= 470`, `Player::handleEvent` sets the position
exactly to the coordinates of the event and changes nothing else. -/
theorem C15_clamp_is_identity_inside (p : Player) (e : SDL_Event)
    (hs : p.start = true) (ht : e.type = SDL_MOUSEMOTION)
    (hx : 10 ≤ e.motion.x ∧ e.motion.x ≤ 630) (hy : 10 ≤ e.motion.y ∧ e.motion.y ≤ 470) :
    p.handleEvent e = ({ p with mPosX := e.motion.x, mPosY := e.motion.y }, e) := by
  have hc : clampLoop pRadius.toNat e.motion.x e.motion.y = (e.motion.x, e.motion.y) :=
    clampLoop_interior 10 _ _ (le_refl 10) hx hy
  simp [Player.handleEvent, hs, ht, hc]

/-- C15, at the corners of the interior: an Active player moved to `(10,470)` is
at `(10,470)`, and one moved to `(630,10)` is at `(630,10)`. -/
theorem C15_clamp_identity_witness :
    (Player.handleEvent ⟨true, 50, 50, 0⟩ (mouseMotion 10 470)).1 = ⟨true, 10, 470, 0⟩ ∧
    (Player.handleEvent ⟨true, 50, 50, 0⟩ (mouseMotion 630 10)).1 = ⟨true, 630, 10, 0⟩ :=
  ⟨congrArg Prod.fst (C15_clamp_is_identity_inside ⟨true, 50, 50, 0⟩ (mouseMotion 10 470)
      rfl rfl (by decide) (by decide)),
   congrArg Prod.fst (C15_clamp_is_identity_inside ⟨true, 50, 50, 0⟩ (mouseMotion 630 10)
      rfl rfl (by decide) (by decide))⟩

/-- C16: every bullet of a constructed group has `x <= 640` and `y <= 480`, and
so has every bullet after `Bullet::move` with any velocity and any draws, and
every bullet of a group after `moveStraight` or `moveCircular`; a bullet can
sit exactly on `x = 640`, `y = 480`, and can have negative coordinates. -/
theorem C16_bullets_never_exceed_upper_bounds :
    (∀ s : RandStream, ∀ b ∈ (BulletGroup.new s).1.bGroup,
      b.bPosX ≤ 640 ∧ b.bPosY ≤ 480) ∧
    (∀ (b : Bullet) (x y : Int) (s : RandStream),
      (b.move x y s).1.bPosX ≤ 640 ∧ (b.move x y s).1.bPosY ≤ 480) ∧
    (∀ (g : BulletGroup) (st : StaticVel) (s : RandStream),
      (∀ b ∈ (g.moveStraight st s).1.bGroup, b.bPosX ≤ 640 ∧ b.bPosY ≤ 480) ∧
      (∀ b ∈ (g.moveCircular st s).1.bGroup, b.bPosX ≤ 640 ∧ b.bPosY ≤ 480)) ∧
    (Bullet.move ⟨639, 477⟩ 1 3 (fun n => 1000 + 7 * n)).1 = ⟨640, 480⟩ ∧
    (Bullet.move ⟨0, 0⟩ (-1) (-1) (fun n => 1000 + 7 * n)).1 = ⟨-1, -1⟩ := by
  refine ⟨?_, Bullet.move_upper, ?_, by decide, by decide⟩
  · intro s
    exact bulletGroupFill_forall (fun b => b.bPosX ≤ 640 ∧ b.bPosY ≤ 480)
      (fun s1 => ⟨le_of_lt (Bullet.new_bounds s1).1.2, le_of_lt (Bullet.new_bounds s1).2.2⟩)
      10 [] s (by intro b hb; cases hb)
  · intro g st s
    exact ⟨moveLoop_upper 5 g.bGroup st s, moveLoop_upper 3 g.bGroup st s⟩

end Pepero
